import Mathlib

/-!
Verification of the route safety-scoring core of the where2liv repository.

Shallow embedding of `src/safe-route/src/components/RouteSearch.tsx`:
`calculateCrimeDensity` (lines 453-476), `calculateRouteSafetyScore`
(479-534), `getSafetyGrade` (537-543), `identifyHighRiskAreas` (546-595),
the per-route annotation built inside `calculateRoute` (729-752), and the
fastest/safest selection and default-display choice (754-842).

Modelling conventions:
* JS numbers are modelled by `ℚ`.  All quantities the claims touch are
  ratios of integers, so no float rounding is involved.
* `parseFloat(crime.latitude)` is modelled by an `Option ℚ` field:
  `some q` when the string parses, `none` when the result is NaN.
* The comparison `Math.sqrt(dLat*dLat + dLon*dLon) > radius` is modelled
  without square roots: for parsed coordinates,
  `dist ≤ radius ↔ 0 ≤ radius ∧ dist² ≤ radius²` over the reals.  When a
  coordinate is NaN, every comparison with NaN is false in JS, so the
  guard `if (distance > radius) return sum` does NOT skip the record.
* `Array.prototype.sort` (stable per ECMA-262) is modelled by a stable
  insertion sort `stSort`; any two stable sorts of the same list under the
  same total preorder produce the same list.
-/

namespace Where2Liv

/-- `pat` is a prefix of `hay` (character lists). -/
def charsPrefixOf : List Char → List Char → Bool
  | [], _ => true
  | _ :: _, [] => false
  | a :: as, b :: bs => a = b && charsPrefixOf as bs

/-- `pat` occurs contiguously inside `hay` (character lists). -/
def charsContains (pat : List Char) : List Char → Bool
  | [] => charsPrefixOf pat []
  | h :: t => charsPrefixOf pat (h :: t) || charsContains pat t

/-- Models JS `s.includes(pat)`. -/
def strIncludes (s pat : String) : Bool :=
  charsContains pat.toList s.toList

/-- Models JS `s.toLowerCase()` (the categories involved are ASCII):
lowercase every character.  Written through the character list rather than
`String.map` so that it evaluates by kernel reduction. -/
def jsToLower (s : String) : String := String.mk (s.toList.map Char.toLower)

/-- An incident record as consumed by `calculateCrimeDensity`.
`latitude` / `longitude` model the result of `parseFloat` on the raw string
fields: `some q` when the string parses, `none` when it yields NaN.
`incident_category` / `incident_description` are optional strings
(`none` models JS `undefined`). -/
structure Crime where
  latitude : Option ℚ
  longitude : Option ℚ
  incident_category : Option String
  incident_description : Option String
deriving DecidableEq

/-- The default `radius` parameter of `calculateCrimeDensity`: `0.005`. -/
def defaultRadius : ℚ := 5 / 1000

/-- Models `(crime.incident_category || '')`: JS `||` yields `''` both when
the field is `undefined` and when it is already the (falsy) empty string. -/
def categoryField (c : Crime) : String := c.incident_category.getD ""

/-- The category weight of lines 459-466.  The source also computes the
lowercased `incident_description` into a local `desc` at line 460, but the
weight conditional never reads it: matching is on the category alone. -/
def crimeWeight (c : Crime) : ℕ :=
  let category := jsToLower (categoryField c)
  if strIncludes category "assault" || strIncludes category "robbery" then 8
  else if strIncludes category "burglary" || strIncludes category "theft"
          || strIncludes category "larceny" then 5
  else if strIncludes category "arson" then 6
  else if strIncludes category "fraud" then 3
  else if strIncludes category "vehicle" || strIncludes category "auto" then 3
  else 1

/-- Models the guard `if (distance > radius) return sum` of line 458: the
record is COUNTED exactly when this is true.  For parsed coordinates that is
`distance ≤ radius`, i.e. `0 ≤ radius ∧ dLat² + dLon² ≤ radius²`.  When
either coordinate is NaN the JS comparison `NaN > radius` is false, so the
guard does not fire and the record is counted unconditionally. -/
def countedAt (c : Crime) (lat lon radius : ℚ) : Bool :=
  match c.latitude, c.longitude with
  | some clat, some clon =>
      decide (0 ≤ radius ∧ (clat - lat) ^ 2 + (clon - lon) ^ 2 ≤ radius ^ 2)
  | _, _ => true

/-- `calculateCrimeDensity` (lines 453-468): a `reduce` over the incident
list adding the category weight of every counted record. -/
def calculateCrimeDensity (lat lon : ℚ) (crimeData : List Crime) (radius : ℚ) : ℕ :=
  crimeData.foldl
    (fun sum crime =>
      if countedAt crime lat lon radius then sum + crimeWeight crime else sum)
    0

/-- `coordinates.filter((_, index) => index % 5 === 0)` (line 496):
the polyline points whose index is divisible by 5. -/
def samplePoints (coordinates : List (ℚ × ℚ)) : List (ℚ × ℚ) :=
  ((coordinates.enum).filter (fun p => p.1 % 5 = 0)).map Prod.snd

/-- The densities at the sampled points, as rationals (line 501). -/
def routeDensitiesQ (coordinates : List (ℚ × ℚ)) (crimeData : List Crime) : List ℚ :=
  (samplePoints coordinates).map
    (fun c => (calculateCrimeDensity c.1 c.2 crimeData defaultRadius : ℚ))

/-- The running total accumulated over the sampled points (line 502),
written as the sum of the density list. -/
def totalCrimeScore (coordinates : List (ℚ × ℚ)) (crimeData : List Crime) : ℚ :=
  (routeDensitiesQ coordinates crimeData).sum

/-- The `Math.max` accumulation of line 503, starting from `0` (line 495). -/
def maxCrimeAtPoint (coordinates : List (ℚ × ℚ)) (crimeData : List Crime) : ℚ :=
  (routeDensitiesQ coordinates crimeData).foldl max 0

/-- `avgCrimeScore = totalCrimeScore / samplePoints.length` (line 510). -/
def avgCrimeScore (coordinates : List (ℚ × ℚ)) (crimeData : List Crime) : ℚ :=
  totalCrimeScore coordinates crimeData / ((samplePoints coordinates).length : ℚ)

/-- `calculateRouteSafetyScore` (lines 479-534).  Empty-input guard at 485;
running sum and `Math.max` accumulation over the stride-5 sample at
494-508 (see `totalCrimeScore`, `maxCrimeAtPoint`); mean at 510;
normalisation at 519-520; base-90 score and clamp at 523-524. -/
def calculateRouteSafetyScore (coordinates : List (ℚ × ℚ)) (crimeData : List Crime) : ℚ :=
  if coordinates.length = 0 ∨ crimeData.length = 0 then 85
  else
    let normalizedAvg := min (avgCrimeScore coordinates crimeData / 300) (3 / 2)
    let normalizedMax := min (maxCrimeAtPoint coordinates crimeData / 500) (3 / 2)
    let safetyScore := 90 - (normalizedAvg * 20 + normalizedMax * 25)
    max 0 (min 100 safetyScore)

/-- `getSafetyGrade` (lines 537-543). -/
def getSafetyGrade (score : ℚ) : String :=
  if 90 ≤ score then "A"
  else if 80 ≤ score then "B"
  else if 70 ≤ score then "C"
  else if 60 ≤ score then "D"
  else "F"

/-- A flagged point produced by `identifyHighRiskAreas` (line 547). -/
structure RiskArea where
  lat : ℚ
  lng : ℚ
  risk : String
  description : String
deriving DecidableEq

/-- The `nearbyIncidents` filter of lines 557-562: `distance < 0.005`,
strict, with the fixed literal radius.  NaN coordinates fail `NaN < 0.005`,
so unparsed records are excluded here (unlike in the density fold). -/
def nearbyAt (c : Crime) (lat lon : ℚ) : Bool :=
  match c.latitude, c.longitude with
  | some clat, some clon =>
      decide ((clat - lat) ^ 2 + (clon - lon) ^ 2 < defaultRadius ^ 2)
  | _, _ => false

/-- The histogram key `crime.incident_category || crime.incident_description`
(line 565) as it ends up as a JS object key: a falsy category (undefined or
`''`) falls through to the description, and if that is `undefined` too the
object key is the string `"undefined"`. -/
def crimeKey (c : Crime) : String :=
  let fallback :=
    match c.incident_description with
    | some d => d
    | none => "undefined"
  match c.incident_category with
  | some s => if s = "" then fallback else s
  | none => fallback

/-- One step of the `reduce` of lines 566-569: bump the count of key `k`,
keeping JS object insertion order (new keys are appended). -/
def bumpCount : List (String × ℕ) → String → List (String × ℕ)
  | [], k => [(k, 1)]
  | (k', n) :: rest, k =>
      if k' = k then (k', n + 1) :: rest else (k', n) :: bumpCount rest k

/-- Stable insert: place `x` before the first element `y` with `le x y`. -/
def stInsert (le : α → α → Bool) (x : α) : List α → List α
  | [] => [x]
  | y :: ys => if le x y then x :: y :: ys else y :: stInsert le x ys

/-- Stable insertion sort, modelling JS `Array.prototype.sort` with a
comparator whose induced preorder is `le` (ECMA-262 requires sort to be
stable, and all stable sorts under the same total preorder agree). -/
def stSort (le : α → α → Bool) : List α → List α
  | [] => []
  | x :: xs => stInsert le x (stSort le xs)

/-- The descending-count comparator `([,a],[,b]) => b - a` of line 572. -/
def leCount (a b : String × ℕ) : Bool := decide (b.2 ≤ a.2)

/-- The `description` built at lines 564-578 from the nearby incidents:
histogram by key, sort entries by count descending (stable), take the top
entry, lowercase its key. -/
def riskDescription (nearbyIncidents : List Crime) : String :=
  let commonCrimes := nearbyIncidents.foldl (fun acc c => bumpCount acc (crimeKey c)) []
  match (stSort leCount commonCrimes).head? with
  | some kv => "High " ++ jsToLower kv.1 ++ " activity (" ++ toString kv.2 ++ " incidents)"
  | none => "High crime activity detected"

/-- `identifyHighRiskAreas` (lines 546-595): every 10th point, flag when the
density exceeds 15, risk level `"high"` when it exceeds 50, `"medium"`
otherwise; emission follows traversal order. -/
def identifyHighRiskAreas (coordinates : List (ℚ × ℚ)) (crimeData : List Crime) : List RiskArea :=
  (coordinates.enum).filterMap (fun p =>
    if p.1 % 10 = 0 then
      let crimeScore := calculateCrimeDensity p.2.1 p.2.2 crimeData defaultRadius
      if 15 < crimeScore then
        let riskLevel := if 50 < crimeScore then "high" else "medium"
        let nearbyIncidents := crimeData.filter (fun c => nearbyAt c p.2.1 p.2.2)
        some { lat := p.2.1, lng := p.2.2, risk := riskLevel,
               description := riskDescription nearbyIncidents }
      else none
    else none)

/-- One raw route alternative as returned by the routing API (line 729):
total distance in meters, total duration in seconds, and the polyline after
the `[lon,lat] → [lat,lon]` swap of line 730. -/
structure RouteData where
  distance : ℚ
  duration : ℚ
  coordinates : List (ℚ × ℚ)
deriving DecidableEq

/-- JS `Math.round`: round half toward positive infinity. -/
def jsRound (q : ℚ) : ℤ := ⌊q + 1 / 2⌋

/-- The fields of a processed route object (lines 734-750) that the
selection stage and the claims read: `route.safetyScore` is the ROUNDED
score (line 740) while `route.safetyGrade` is computed from the unrounded
score (line 741); `distance_meters` / `duration_seconds` sit in `details`
(lines 746-747). -/
structure ProcessedRoute where
  distance_meters : ℚ
  duration_seconds : ℚ
  safetyScore : ℤ
  safetyGrade : String
  highRiskAreas : List RiskArea
deriving DecidableEq

/-- The per-route annotation built inside `calculateRoute` (lines 729-750). -/
def processRoute (crimeData : List Crime) (r : RouteData) : ProcessedRoute :=
  { distance_meters := r.distance
  , duration_seconds := r.duration
  , safetyScore := jsRound (calculateRouteSafetyScore r.coordinates crimeData)
  , safetyGrade := getSafetyGrade (calculateRouteSafetyScore r.coordinates crimeData)
  , highRiskAreas := identifyHighRiskAreas r.coordinates crimeData }

/-- An entry of the `finalRoutes` list after re-indexing (lines 769-785):
`type` is the code's role string (`"fastest"`, `"safest"`,
`"fastest_safest"`). -/
structure FinalRoute where
  index : ℕ
  type : String
  route : ProcessedRoute
deriving DecidableEq

/-- The ascending-duration comparator of line 757. -/
def leDuration (a b : ProcessedRoute) : Bool :=
  decide (a.duration_seconds ≤ b.duration_seconds)

/-- The descending-safety comparator of line 761. -/
def leSafety (a b : ProcessedRoute) : Bool :=
  decide (b.safetyScore ≤ a.safetyScore)

/-- The selection of lines 754-785: `fastest` and `safest` are the heads of
the two stable sorts; if they agree on distance AND duration a single entry
typed `"fastest_safest"` is kept, otherwise both, in the order {fastest,
safest}, re-indexed 0..n-1.  (The empty branch is unreachable: the caller
throws before this point when the API returns no alternatives.) -/
def selectFinalRoutes (processedRoutes : List ProcessedRoute) : List FinalRoute :=
  match (stSort leDuration processedRoutes).head?, (stSort leSafety processedRoutes).head? with
  | some fastestRoute, some safestRoute =>
      if fastestRoute.distance_meters = safestRoute.distance_meters ∧
         fastestRoute.duration_seconds = safestRoute.duration_seconds then
        [⟨0, "fastest_safest", fastestRoute⟩]
      else
        [⟨0, "fastest", fastestRoute⟩, ⟨1, "safest", safestRoute⟩]
  | _, _ => []

/-- The default display route (lines 836-839): first entry typed
`"safest"`, else `"fastest_safest"`, else `"fastest"`, else the head. -/
def defaultRouteOf (finalRoutes : List FinalRoute) : Option FinalRoute :=
  (finalRoutes.find? (fun r => r.type == "safest")) <|>
  (finalRoutes.find? (fun r => r.type == "fastest_safest")) <|>
  (finalRoutes.find? (fun r => r.type == "fastest")) <|>
  finalRoutes.head?

/-! ### Specification-side definitions

These follow the wording of the specification (spec.md) for the refinement
claims; they are compared against the code-side definitions above. -/

/-- The claim's within-radius test: an incident is in range when its
Euclidean distance on raw lat/lon to the point is ≤ `radius`.  A distance
exists only for incidents whose coordinates parse; over `ℚ` the test
`dist ≤ radius` is `0 ≤ radius ∧ dLat² + dLon² ≤ radius²`. -/
def specWithinRadius (c : Crime) (lat lon radius : ℚ) : Bool :=
  match c.latitude, c.longitude with
  | some clat, some clon =>
      decide (0 ≤ radius ∧ (clat - lat) ^ 2 + (clon - lon) ^ 2 ≤ radius ^ 2)
  | _, _ => false

/-- The category weight exactly as claim C2 words it: case-insensitive
substring matching against the category field and, where the category is
absent (missing or empty), against the description field. -/
def claimWeightC2 (c : Crime) : ℕ :=
  let base :=
    match c.incident_category with
    | some s => if s = "" then c.incident_description.getD "" else s
    | none => c.incident_description.getD ""
  let f := jsToLower base
  if strIncludes f "assault" || strIncludes f "robbery" then 8
  else if strIncludes f "burglary" || strIncludes f "theft"
          || strIncludes f "larceny" then 5
  else if strIncludes f "arson" then 6
  else if strIncludes f "fraud" then 3
  else if strIncludes f "vehicle" || strIncludes f "auto" then 3
  else 1

/-- The density exactly as claim C2 states it: the sum, over the incidents
within `radius` of the point, of `claimWeightC2`. -/
def claimDensityC2 (lat lon : ℚ) (cd : List Crime) (radius : ℚ) : ℕ :=
  ((cd.filter (fun c => specWithinRadius c lat lon radius)).map claimWeightC2).sum

/-- The Route Scorer exactly as claim C1 words it: sample the polyline
points whose index is divisible by 5, compute the density at each sampled
point with the default radius, take the mean and the maximum, normalise
with `min(avg/300, 1.5)` and `min(max/500, 1.5)`, and clamp
`90 − (normAvg·20 + normMax·25)` to `[0, 100]`. -/
def claimRouteScoreC1 (polyline : List (ℚ × ℚ)) (incidents : List Crime) : ℚ :=
  let idxs := (List.range polyline.length).filter (fun i => i % 5 = 0)
  let pts := idxs.filterMap (fun i => polyline.get? i)
  let ds := pts.map (fun p => (calculateCrimeDensity p.1 p.2 incidents defaultRadius : ℚ))
  let avgDensityV := ds.sum / (pts.length : ℚ)
  let maxDensityV := ds.foldl max 0
  let normAvg := min (avgDensityV / 300) (3 / 2)
  let normMax := min (maxDensityV / 500) (3 / 2)
  let rawScore := 90 - (normAvg * 20 + normMax * 25)
  min (max rawScore 0) 100

/-- The natural-number densities at the sampled points (used to relate the
rational accumulators back to the weight sums). -/
def routeDensities (coordinates : List (ℚ × ℚ)) (crimeData : List Crime) : List ℕ :=
  (samplePoints coordinates).map
    (fun c => calculateCrimeDensity c.1 c.2 crimeData defaultRadius)

/-- Rank of a letter grade, for stating monotonicity (A highest). -/
def gradeRank (g : String) : ℕ :=
  if g = "A" then 4 else if g = "B" then 3 else if g = "C" then 2
  else if g = "D" then 1 else 0

/-! ### Concrete data used by counterexamples and witnesses -/

/-- A weight-1 incident at the origin (category matches no keyword). -/
def crimeOtherAt0 : Crime := ⟨some 0, some 0, some "Other", none⟩

/-- A weight-8 incident at the origin. -/
def crimeAssaultAt0 : Crime := ⟨some 0, some 0, some "Assault", none⟩

/-- An incident with no category whose description mentions assault. -/
def crimeDescAssault : Crime := ⟨some 0, some 0, none, some "Aggravated Assault"⟩

/-- An incident whose latitude string does not parse (`parseFloat` → NaN). -/
def crimeBadLat : Crime := ⟨none, some 0, some "Assault", none⟩

/-- A one-point route at the origin with distance 100 m, duration 100 s. -/
def routeOne : RouteData := ⟨100, 100, [(0, 0)]⟩

/-- 94 assault incidents at the origin: density 752, which saturates both
normalisations (752 ≥ 450 and 752 ≥ 750). -/
def cdSaturated : List Crime := List.replicate 94 crimeAssaultAt0

/-- First strict-improvement scan: the element a stable sort with preorder
`le` puts first, i.e. the earliest element that no later element strictly
beats.  Used to characterise `(stSort le l).head?`. -/
def pickF (le : α → α → Bool) : List α → Option α
  | [] => none
  | x :: xs =>
    match pickF le xs with
    | none => some x
    | some m => if le x m then some x else some m

/-- A processed route used by the selector witnesses: fast but less safe. -/
def prFast : ProcessedRoute := ⟨1000, 600, 80, "B", []⟩

/-- A processed route used by the selector witnesses: slower but safer. -/
def prSafe : ProcessedRoute := ⟨2000, 800, 90, "A", []⟩

/-! ### Helper lemmas -/

theorem crimeWeight_pos (c : Crime) : 1 ≤ crimeWeight c := by
  simp only [crimeWeight]
  split_ifs <;> omega

theorem foldlDensityAux (lat lon radius : ℚ) (cd : List Crime) : ∀ a : ℕ,
    cd.foldl (fun sum crime =>
        if countedAt crime lat lon radius then sum + crimeWeight crime else sum) a
      = a + (cd.map (fun c => if countedAt c lat lon radius then crimeWeight c else 0)).sum := by
  induction cd with
  | nil => intro a; simp
  | cons c cs ih =>
      intro a
      simp only [List.foldl_cons, List.map_cons, List.sum_cons, ih]
      by_cases h : countedAt c lat lon radius
      · simp only [if_pos h]
        omega
      · simp [h]

theorem calculateCrimeDensity_eq_sum (lat lon radius : ℚ) (cd : List Crime) :
    calculateCrimeDensity lat lon cd radius
      = (cd.map (fun c => if countedAt c lat lon radius then crimeWeight c else 0)).sum := by
  unfold calculateCrimeDensity
  simpa using foldlDensityAux lat lon radius cd 0

theorem calculateCrimeDensity_cons (lat lon radius : ℚ) (c : Crime) (cd : List Crime) :
    calculateCrimeDensity lat lon (c :: cd) radius
      = (if countedAt c lat lon radius then crimeWeight c else 0)
        + calculateCrimeDensity lat lon cd radius := by
  simp [calculateCrimeDensity_eq_sum]

theorem countedAt_self (c : Crime) (lat lon : ℚ) (hlat : c.latitude = some lat)
    (hlon : c.longitude = some lon) : countedAt c lat lon defaultRadius = true := by
  unfold countedAt
  rw [hlat, hlon]
  simp only [decide_eq_true_eq]
  constructor
  · norm_num [defaultRadius]
  · have : (lat - lat) ^ 2 + (lon - lon) ^ 2 = 0 := by ring
    rw [this]
    positivity

theorem samplePoints_cons (x : ℚ × ℚ) (xs : List (ℚ × ℚ)) :
    samplePoints (x :: xs)
      = x :: (((xs.enumFrom 1).filter (fun p => p.1 % 5 = 0)).map Prod.snd) := by
  simp [samplePoints, List.enum_cons]

theorem samplePoints_ne_nil (coords : List (ℚ × ℚ)) (h : coords ≠ []) :
    samplePoints coords ≠ [] := by
  cases coords with
  | nil => exact absurd rfl h
  | cons x xs => rw [samplePoints_cons]; exact List.cons_ne_nil _ _

theorem le_foldl_max (l : List ℚ) : ∀ a : ℚ, a ≤ l.foldl max a := by
  induction l with
  | nil => intro a; simp
  | cons x xs ih =>
      intro a
      calc a ≤ max a x := le_max_left _ _
        _ ≤ (x :: xs).foldl max a := by simpa using ih (max a x)

theorem foldl_max_le (l : List ℚ) : ∀ a b : ℚ, a ≤ b → (∀ x ∈ l, x ≤ b) →
    l.foldl max a ≤ b := by
  induction l with
  | nil => intro a b hab _; simpa using hab
  | cons x xs ih =>
      intro a b hab hmem
      simp only [List.foldl_cons]
      exact ih _ _ (max_le hab (hmem x (by simp))) (fun y hy => hmem y (by simp [hy]))

theorem foldl_max_mono {α : Type} (f g : α → ℚ) (l : List α) :
    ∀ a b : ℚ, a ≤ b → (∀ x ∈ l, f x ≤ g x) →
      (l.map f).foldl max a ≤ (l.map g).foldl max b := by
  induction l with
  | nil => intro a b hab _; simpa using hab
  | cons x xs ih =>
      intro a b hab hmem
      simp only [List.map_cons, List.foldl_cons]
      exact ih _ _ (max_le_max hab (hmem x (by simp)))
        (fun y hy => hmem y (by simp [hy]))

theorem foldl_max_of_all_zero (l : List ℚ) (h : ∀ x ∈ l, x = 0) :
    l.foldl max 0 = 0 :=
  le_antisymm (foldl_max_le l 0 0 le_rfl (fun x hx => le_of_eq (h x hx)))
    (le_foldl_max l 0)

theorem routeDensitiesQ_eq_cast (coords : List (ℚ × ℚ)) (cd : List Crime) :
    routeDensitiesQ coords cd = (routeDensities coords cd).map (Nat.cast : ℕ → ℚ) := by
  simp only [routeDensitiesQ, routeDensities, List.map_map]
  rfl

theorem sum_map_cast (l : List ℕ) : (l.map (Nat.cast : ℕ → ℚ)).sum = (l.sum : ℚ) := by
  induction l with
  | nil => simp
  | cons n ns ih =>
      rw [List.map_cons, List.sum_cons, ih, List.sum_cons, Nat.cast_add]

theorem totalCrimeScore_eq_cast (coords : List (ℚ × ℚ)) (cd : List Crime) :
    totalCrimeScore coords cd = ((routeDensities coords cd).sum : ℚ) := by
  rw [totalCrimeScore, routeDensitiesQ_eq_cast, sum_map_cast]

theorem routeDensitiesQ_nonneg (coords : List (ℚ × ℚ)) (cd : List Crime) :
    ∀ x ∈ routeDensitiesQ coords cd, 0 ≤ x := by
  intro x hx
  rw [routeDensitiesQ_eq_cast] at hx
  obtain ⟨n, _, rfl⟩ := List.mem_map.mp hx
  exact Nat.cast_nonneg n

theorem avgCrimeScore_nonneg (coords : List (ℚ × ℚ)) (cd : List Crime) :
    0 ≤ avgCrimeScore coords cd := by
  rw [avgCrimeScore, totalCrimeScore]
  exact div_nonneg (List.sum_nonneg (routeDensitiesQ_nonneg coords cd))
    (Nat.cast_nonneg _)

theorem maxCrimeAtPoint_nonneg (coords : List (ℚ × ℚ)) (cd : List Crime) :
    0 ≤ maxCrimeAtPoint coords cd :=
  le_foldl_max _ 0

theorem clamp_of_bounds (x : ℚ) (h1 : 45 / 2 ≤ x) (h2 : x ≤ 90) :
    max 0 (min 100 x) = x := by
  rw [min_eq_right (by linarith), max_eq_right (by linarith)]

theorem clamp2_of_bounds (x : ℚ) (h1 : 45 / 2 ≤ x) (h2 : x ≤ 90) :
    min (max x 0) 100 = x := by
  rw [max_eq_left (by linarith), min_eq_left (by linarith)]

theorem score_eq_raw (coords : List (ℚ × ℚ)) (cd : List Crime)
    (hc : coords ≠ []) (hd : cd ≠ []) :
    calculateRouteSafetyScore coords cd
      = 90 - (min (avgCrimeScore coords cd / 300) (3 / 2) * 20
              + min (maxCrimeAtPoint coords cd / 500) (3 / 2) * 25) := by
  have hcl : ¬ (coords.length = 0 ∨ cd.length = 0) := by
    simp [List.length_eq_zero, hc, hd]
  rw [calculateRouteSafetyScore, if_neg hcl]
  have hA0 : 0 ≤ min (avgCrimeScore coords cd / 300) (3 / 2) :=
    le_min (div_nonneg (avgCrimeScore_nonneg coords cd) (by norm_num)) (by norm_num)
  have hA1 : min (avgCrimeScore coords cd / 300) (3 / 2) ≤ 3 / 2 := min_le_right _ _
  have hM0 : 0 ≤ min (maxCrimeAtPoint coords cd / 500) (3 / 2) :=
    le_min (div_nonneg (maxCrimeAtPoint_nonneg coords cd) (by norm_num)) (by norm_num)
  have hM1 : min (maxCrimeAtPoint coords cd / 500) (3 / 2) ≤ 3 / 2 := min_le_right _ _
  exact clamp_of_bounds _ (by linarith) (by linarith)

theorem score_bounds (coords : List (ℚ × ℚ)) (cd : List Crime)
    (hc : coords ≠ []) (hd : cd ≠ []) :
    45 / 2 ≤ calculateRouteSafetyScore coords cd
      ∧ calculateRouteSafetyScore coords cd ≤ 90 := by
  rw [score_eq_raw coords cd hc hd]
  have hA0 : 0 ≤ min (avgCrimeScore coords cd / 300) (3 / 2) :=
    le_min (div_nonneg (avgCrimeScore_nonneg coords cd) (by norm_num)) (by norm_num)
  have hA1 : min (avgCrimeScore coords cd / 300) (3 / 2) ≤ 3 / 2 := min_le_right _ _
  have hM0 : 0 ≤ min (maxCrimeAtPoint coords cd / 500) (3 / 2) :=
    le_min (div_nonneg (maxCrimeAtPoint_nonneg coords cd) (by norm_num)) (by norm_num)
  have hM1 : min (maxCrimeAtPoint coords cd / 500) (3 / 2) ≤ 3 / 2 := min_le_right _ _
  constructor <;> linarith

theorem getSafetyGrade_eq_A_iff (s : ℚ) : getSafetyGrade s = "A" ↔ 90 ≤ s := by
  unfold getSafetyGrade
  split_ifs with h1 h2 h3 h4 <;> simp_all

/-! ### Claim C7 -/

/-- C7: whenever the incident list is empty or the polyline is empty,
`calculateRouteSafetyScore` returns exactly the fixed neutral default 85. -/
theorem claim_C7 (coords : List (ℚ × ℚ)) (cd : List Crime)
    (h : coords = [] ∨ cd = []) : calculateRouteSafetyScore coords cd = 85 := by
  rw [calculateRouteSafetyScore, if_pos]
  rcases h with h | h <;> simp [h]

theorem claim_C7_witness :
    (([((0 : ℚ), (0 : ℚ))] : List (ℚ × ℚ)) = [] ∨ ([] : List Crime) = [])
    ∧ calculateRouteSafetyScore [((0 : ℚ), (0 : ℚ))] [] = 85 :=
  ⟨Or.inr rfl, claim_C7 [((0 : ℚ), (0 : ℚ))] [] (Or.inr rfl)⟩

/-! ### Claim C4 -/

/-- C4 (failing input): an incident whose latitude does not parse is NOT
skipped by `calculateCrimeDensity` — because `NaN > radius` is false the
skip branch never fires, so the record adds its full weight 8 at EVERY
query point, here both at the origin and at a far-away point.  The claim
(and spec §6/§7) demands such records contribute nothing. -/
theorem claim_C4_code_eval :
    calculateCrimeDensity 1000 1000 [crimeBadLat] defaultRadius = 8
    ∧ calculateCrimeDensity 0 0 [crimeBadLat] defaultRadius = 8 := by
  constructor <;> rfl

/-! ### Claim C2 -/

unseal Rat.mul Rat.inv Rat.add Rat.sub in
/-- C2 (counterexample): for an incident with no category whose description
contains "assault", sitting exactly at the query point, the claimed density
(substring matching falling back to the description) is 8, but the code
returns 1: the code computes the lowercased description into `desc` and
then never uses it. -/
theorem claim_C2_counterexample :
    calculateCrimeDensity 0 0 [crimeDescAssault] defaultRadius = 1
    ∧ claimDensityC2 0 0 [crimeDescAssault] defaultRadius = 8 := by
  decide

theorem sum_ite_eq_filter (p : Crime → Bool) (w : Crime → ℕ) (l : List Crime) :
    (l.map (fun c => if p c then w c else 0)).sum = ((l.filter p).map w).sum := by
  induction l with
  | nil => simp
  | cons c cs ih => by_cases h : p c <;> simp [h, ih]

/-- C2 (amended): for incidents whose coordinates all parse,
`calculateCrimeDensity` is the sum, over the incidents within `radius` of
the point (Euclidean on raw lat/lon), of the category weight — matched
case-insensitively against the category field ONLY (the description is
read but never used); the default radius is 0.005 degrees. -/
theorem claim_C2_amended (lat lon radius : ℚ) (cd : List Crime)
    (hparse : ∀ c ∈ cd, c.latitude.isSome ∧ c.longitude.isSome) :
    calculateCrimeDensity lat lon cd radius
      = ((cd.filter (fun c => specWithinRadius c lat lon radius)).map crimeWeight).sum
    ∧ defaultRadius = 5 / 1000 := by
  refine ⟨?_, rfl⟩
  rw [calculateCrimeDensity_eq_sum, ← sum_ite_eq_filter]
  apply congrArg
  apply List.map_congr_left
  intro c hc
  obtain ⟨hla, hlo⟩ := hparse c hc
  rcases Option.isSome_iff_exists.mp hla with ⟨a, ha⟩
  rcases Option.isSome_iff_exists.mp hlo with ⟨b, hb⟩
  simp [countedAt, specWithinRadius, ha, hb]

theorem claim_C2_witness :
    (∀ c ∈ [crimeAssaultAt0, crimeOtherAt0], c.latitude.isSome ∧ c.longitude.isSome)
    ∧ calculateCrimeDensity 0 0 [crimeAssaultAt0, crimeOtherAt0] defaultRadius
      = ((([crimeAssaultAt0, crimeOtherAt0].filter
          (fun c => specWithinRadius c 0 0 defaultRadius)).map crimeWeight).sum) :=
  ⟨by decide, (claim_C2_amended 0 0 defaultRadius [crimeAssaultAt0, crimeOtherAt0] (by decide)).1⟩

/-! ### Claim C10 -/

/-- C10: for a non-empty polyline and non-empty incident list the computed
score lies in [22.5, 90] (so the clamp at 0 is unreachable and no computed
route scores above 90), and the score reaches 90 — equivalently grade A —
exactly when every sampled point has density 0. -/
theorem claim_C10 (coords : List (ℚ × ℚ)) (cd : List Crime)
    (hc : coords ≠ []) (hd : cd ≠ []) :
    45 / 2 ≤ calculateRouteSafetyScore coords cd
    ∧ calculateRouteSafetyScore coords cd ≤ 90
    ∧ (90 ≤ calculateRouteSafetyScore coords cd
        ↔ ∀ p ∈ samplePoints coords, calculateCrimeDensity p.1 p.2 cd defaultRadius = 0)
    ∧ (getSafetyGrade (calculateRouteSafetyScore coords cd) = "A"
        ↔ ∀ p ∈ samplePoints coords, calculateCrimeDensity p.1 p.2 cd defaultRadius = 0) := by
  obtain ⟨hb1, hb2⟩ := score_bounds coords cd hc hd
  have hlen : ((samplePoints coords).length : ℚ) ≠ 0 := by
    have := samplePoints_ne_nil coords hc
    simpa [List.length_eq_zero] using this
  have hiff : 90 ≤ calculateRouteSafetyScore coords cd
      ↔ ∀ p ∈ samplePoints coords, calculateCrimeDensity p.1 p.2 cd defaultRadius = 0 := by
    constructor
    · intro h
      rw [score_eq_raw coords cd hc hd] at h
      have hA0 : 0 ≤ min (avgCrimeScore coords cd / 300) (3 / 2) :=
        le_min (div_nonneg (avgCrimeScore_nonneg coords cd) (by norm_num)) (by norm_num)
      have hM0 : 0 ≤ min (maxCrimeAtPoint coords cd / 500) (3 / 2) :=
        le_min (div_nonneg (maxCrimeAtPoint_nonneg coords cd) (by norm_num)) (by norm_num)
      have hA : min (avgCrimeScore coords cd / 300) (3 / 2) = 0 := by linarith
      have havg : avgCrimeScore coords cd = 0 := by
        rcases min_eq_iff.mp hA with ⟨h1, _⟩ | ⟨h1, _⟩
        · rcases div_eq_zero_iff.mp h1 with h2 | h2
          · exact h2
          · norm_num at h2
        · norm_num at h1
      have htot : totalCrimeScore coords cd = 0 := by
        rcases div_eq_zero_iff.mp havg with h2 | h2
        · exact h2
        · exact absurd h2 hlen
      have hnat : (routeDensities coords cd).sum = 0 := by
        have := totalCrimeScore_eq_cast coords cd
        rw [htot] at this
        exact_mod_cast this.symm
      intro p hp
      have := List.sum_eq_zero_iff.mp hnat
      exact this _ (List.mem_map_of_mem _ hp)
    · intro h
      rw [score_eq_raw coords cd hc hd]
      have hall : ∀ n ∈ routeDensities coords cd, n = 0 := by
        intro n hn
        obtain ⟨p, hp, rfl⟩ := List.mem_map.mp hn
        exact h p hp
      have htot : totalCrimeScore coords cd = 0 := by
        rw [totalCrimeScore_eq_cast, List.sum_eq_zero_iff.mpr hall]
        norm_num
      have havg : avgCrimeScore coords cd = 0 := by
        rw [avgCrimeScore, htot, zero_div]
      have hmax : maxCrimeAtPoint coords cd = 0 := by
        rw [maxCrimeAtPoint]
        apply foldl_max_of_all_zero
        intro x hx
        rw [routeDensitiesQ_eq_cast] at hx
        obtain ⟨n, hn, rfl⟩ := List.mem_map.mp hx
        exact_mod_cast hall n hn
      rw [havg, hmax]
      norm_num
  exact ⟨hb1, hb2, hiff, (getSafetyGrade_eq_A_iff _).trans hiff⟩

theorem claim_C10_witness :
    (([((0 : ℚ), (0 : ℚ))] : List (ℚ × ℚ)) ≠ [] ∧ ([crimeOtherAt0] : List Crime) ≠ [])
    ∧ (45 / 2 ≤ calculateRouteSafetyScore [((0 : ℚ), (0 : ℚ))] [crimeOtherAt0]
       ∧ calculateRouteSafetyScore [((0 : ℚ), (0 : ℚ))] [crimeOtherAt0] ≤ 90
       ∧ (90 ≤ calculateRouteSafetyScore [((0 : ℚ), (0 : ℚ))] [crimeOtherAt0]
           ↔ ∀ p ∈ samplePoints [((0 : ℚ), (0 : ℚ))],
               calculateCrimeDensity p.1 p.2 [crimeOtherAt0] defaultRadius = 0)
       ∧ (getSafetyGrade (calculateRouteSafetyScore [((0 : ℚ), (0 : ℚ))] [crimeOtherAt0]) = "A"
           ↔ ∀ p ∈ samplePoints [((0 : ℚ), (0 : ℚ))],
               calculateCrimeDensity p.1 p.2 [crimeOtherAt0] defaultRadius = 0)) :=
  ⟨⟨by simp, by simp⟩, claim_C10 [((0 : ℚ), (0 : ℚ))] [crimeOtherAt0] (by simp) (by simp)⟩

/-! ### Claim C1 -/

theorem enumFrom_filter_map_snd {α : Type} (l : List α) : ∀ (n : ℕ) (q : ℕ → Bool),
    ((l.enumFrom n).filter (fun p => q p.1)).map Prod.snd
      = ((List.range l.length).filter (fun i => q (i + n))).filterMap (fun i => l.get? i) := by
  induction l with
  | nil => intro n q; simp
  | cons x xs ih =>
      intro n q
      have hpred : ((fun i => q (i + n)) ∘ Nat.succ) = fun i => q (i + (n + 1)) := by
        funext i
        have h : i + 1 + n = i + (n + 1) := by omega
        simp [Function.comp, h]
      have hget : ((fun i => (x :: xs).get? i) ∘ Nat.succ) = fun i => xs.get? i := by
        funext i
        simp [Function.comp]
      cases hq : q n
      · rw [List.enumFrom_cons, List.length_cons, List.range_succ_eq_map]
        rw [List.filter_cons_of_neg (by simp [hq]), List.filter_cons_of_neg (by simp [hq])]
        rw [List.filter_map, List.filterMap_map, hpred, hget, ih (n + 1) q]
      · rw [List.enumFrom_cons, List.length_cons, List.range_succ_eq_map]
        rw [List.filter_cons_of_pos (by simp [hq]), List.filter_cons_of_pos (by simp [hq])]
        rw [List.map_cons, List.filter_map, List.filterMap_cons]
        simp only [List.get?_cons_zero]
        rw [List.filterMap_map, hpred, hget, ih (n + 1) q]

theorem samplePoints_eq_range (coords : List (ℚ × ℚ)) :
    samplePoints coords
      = ((List.range coords.length).filter (fun i => i % 5 = 0)).filterMap
          (fun i => coords.get? i) := by
  have h := enumFrom_filter_map_snd coords 0 (fun i => decide (i % 5 = 0))
  simpa [samplePoints, List.enum] using h

/-- C1: for every non-empty polyline and non-empty incident list,
`calculateRouteSafetyScore` equals the claimed computation: sample exactly
the points whose index is divisible by 5, take mean and maximum of their
densities at the default radius, normalise with `min(avg/300, 1.5)` and
`min(max/500, 1.5)`, and clamp `90 − (normAvg·20 + normMax·25)` to
[0, 100]. -/
theorem claim_C1 (coords : List (ℚ × ℚ)) (cd : List Crime)
    (hc : coords ≠ []) (hd : cd ≠ []) :
    calculateRouteSafetyScore coords cd = claimRouteScoreC1 coords cd := by
  obtain ⟨hb1, hb2⟩ := score_bounds coords cd hc hd
  rw [score_eq_raw coords cd hc hd] at hb1 hb2
  rw [score_eq_raw coords cd hc hd]
  simp only [claimRouteScoreC1]
  rw [← samplePoints_eq_range]
  simp only [avgCrimeScore, totalCrimeScore, maxCrimeAtPoint, routeDensitiesQ] at hb1 hb2 ⊢
  exact (clamp2_of_bounds _ hb1 hb2).symm

theorem claim_C1_witness :
    (([((0 : ℚ), (0 : ℚ))] : List (ℚ × ℚ)) ≠ [] ∧ ([crimeOtherAt0] : List Crime) ≠ [])
    ∧ calculateRouteSafetyScore [((0 : ℚ), (0 : ℚ))] [crimeOtherAt0]
      = claimRouteScoreC1 [((0 : ℚ), (0 : ℚ))] [crimeOtherAt0] :=
  ⟨⟨by simp, by simp⟩, claim_C1 [((0 : ℚ), (0 : ℚ))] [crimeOtherAt0] (by simp) (by simp)⟩

/-! ### Claim C5 -/

theorem samplePoints_single (p : ℚ × ℚ) : samplePoints [p] = [p] := by
  simp [samplePoints, List.enum_cons]

theorem avgCrimeScore_single (p : ℚ × ℚ) (cd : List Crime) :
    avgCrimeScore [p] cd = (calculateCrimeDensity p.1 p.2 cd defaultRadius : ℚ) := by
  simp [avgCrimeScore, totalCrimeScore, routeDensitiesQ, samplePoints_single]

theorem maxCrimeAtPoint_single (p : ℚ × ℚ) (cd : List Crime) :
    maxCrimeAtPoint [p] cd = (calculateCrimeDensity p.1 p.2 cd defaultRadius : ℚ) := by
  simp only [maxCrimeAtPoint, routeDensitiesQ, samplePoints_single, List.map_cons,
    List.map_nil, List.foldl_cons, List.foldl_nil]
  exact max_eq_right (Nat.cast_nonneg _)

theorem identifyHighRiskAreas_single (p : ℚ × ℚ) (cd : List Crime) :
    identifyHighRiskAreas [p] cd
      = (if 15 < calculateCrimeDensity p.1 p.2 cd defaultRadius then
          [⟨p.1, p.2,
            if 50 < calculateCrimeDensity p.1 p.2 cd defaultRadius then "high" else "medium",
            riskDescription (cd.filter (fun c => nearbyAt c p.1 p.2))⟩]
        else []) := by
  by_cases h : 15 < calculateCrimeDensity p.1 p.2 cd defaultRadius <;>
    simp [identifyHighRiskAreas, List.enum_cons, h]

unseal Rat.mul Rat.inv Rat.add Rat.sub in
/-- C5 (counterexample): a single-point polyline is NOT given the neutral
default by the scorer, and the Risk Segment Locator does NOT return an
empty segment list on it: with three assault incidents at the point the
score is 87.2 and one medium segment is emitted. -/
theorem claim_C5_counterexample :
    calculateRouteSafetyScore [((0 : ℚ), (0 : ℚ))] (List.replicate 3 crimeAssaultAt0) ≠ 85
    ∧ identifyHighRiskAreas [((0 : ℚ), (0 : ℚ))] (List.replicate 3 crimeAssaultAt0) ≠ [] := by
  decide

/-- C5 (amended): for the EMPTY polyline the scorer returns the neutral
default 85 and the locator returns the empty segment list, and a
single-point polyline causes no division by zero; but a single-point
polyline is scored normally (the single point is sampled, so the score is
the computed one, not the 85 default, whenever incidents are non-empty)
and the locator checks that single point against the thresholds. -/
theorem claim_C5_amended (cd : List Crime) (p : ℚ × ℚ) :
    calculateRouteSafetyScore [] cd = 85
    ∧ identifyHighRiskAreas [] cd = []
    ∧ calculateRouteSafetyScore [p] [] = 85
    ∧ (cd ≠ [] → calculateRouteSafetyScore [p] cd
        = 90 - (min ((calculateCrimeDensity p.1 p.2 cd defaultRadius : ℚ) / 300) (3 / 2) * 20
              + min ((calculateCrimeDensity p.1 p.2 cd defaultRadius : ℚ) / 500) (3 / 2) * 25))
    ∧ identifyHighRiskAreas [p] cd
      = (if 15 < calculateCrimeDensity p.1 p.2 cd defaultRadius then
          [⟨p.1, p.2,
            if 50 < calculateCrimeDensity p.1 p.2 cd defaultRadius then "high" else "medium",
            riskDescription (cd.filter (fun c => nearbyAt c p.1 p.2))⟩]
        else []) := by
  refine ⟨by simp [calculateRouteSafetyScore], by simp [identifyHighRiskAreas], by
    simp [calculateRouteSafetyScore], ?_, identifyHighRiskAreas_single p cd⟩
  intro hcd
  rw [score_eq_raw [p] cd (List.cons_ne_nil p []) hcd, avgCrimeScore_single,
    maxCrimeAtPoint_single]

unseal Rat.mul Rat.inv Rat.add Rat.sub in
theorem claim_C5_witness :
    (([crimeAssaultAt0] : List Crime) ≠ [])
    ∧ calculateRouteSafetyScore [((0 : ℚ), (0 : ℚ))] [crimeAssaultAt0]
      = 90 - (min ((calculateCrimeDensity 0 0 [crimeAssaultAt0] defaultRadius : ℚ) / 300) (3 / 2) * 20
            + min ((calculateCrimeDensity 0 0 [crimeAssaultAt0] defaultRadius : ℚ) / 500) (3 / 2) * 25) :=
  ⟨by decide, (claim_C5_amended [crimeAssaultAt0] ((0 : ℚ), (0 : ℚ))).2.2.2.1 (by decide)⟩

/-! ### Claim C9 -/

theorem density_cons_le (lat lon : ℚ) (c : Crime) (cd : List Crime) :
    calculateCrimeDensity lat lon cd defaultRadius
      ≤ calculateCrimeDensity lat lon (c :: cd) defaultRadius := by
  rw [calculateCrimeDensity_cons]
  omega

theorem density_cons_lt_at (c : Crime) (cd : List Crime) (p : ℚ × ℚ)
    (hlat : c.latitude = some p.1) (hlon : c.longitude = some p.2) :
    calculateCrimeDensity p.1 p.2 cd defaultRadius
      < calculateCrimeDensity p.1 p.2 (c :: cd) defaultRadius := by
  rw [calculateCrimeDensity_cons, if_pos (countedAt_self c p.1 p.2 hlat hlon)]
  have := crimeWeight_pos c
  omega

theorem totalCrimeScore_cons_le (coords : List (ℚ × ℚ)) (cd : List Crime) (c : Crime) :
    totalCrimeScore coords cd ≤ totalCrimeScore coords (c :: cd) := by
  unfold totalCrimeScore routeDensitiesQ
  apply List.sum_le_sum
  intro q _
  exact_mod_cast density_cons_le q.1 q.2 c cd

theorem totalCrimeScore_cons_lt (coords : List (ℚ × ℚ)) (cd : List Crime) (c : Crime)
    (p : ℚ × ℚ) (hp : p ∈ samplePoints coords)
    (hlat : c.latitude = some p.1) (hlon : c.longitude = some p.2) :
    totalCrimeScore coords cd < totalCrimeScore coords (c :: cd) := by
  unfold totalCrimeScore routeDensitiesQ
  apply List.sum_lt_sum
  · intro q _
    exact_mod_cast density_cons_le q.1 q.2 c cd
  · exact ⟨p, hp, by exact_mod_cast density_cons_lt_at c cd p hlat hlon⟩

theorem maxCrimeAtPoint_cons_le (coords : List (ℚ × ℚ)) (cd : List Crime) (c : Crime) :
    maxCrimeAtPoint coords cd ≤ maxCrimeAtPoint coords (c :: cd) := by
  unfold maxCrimeAtPoint routeDensitiesQ
  apply foldl_max_mono _ _ (samplePoints coords) 0 0 le_rfl
  intro q _
  exact_mod_cast density_cons_le q.1 q.2 c cd

set_option maxRecDepth 400000 in
unseal Rat.mul Rat.inv Rat.add Rat.sub in
/-- C9 (counterexample): the original claim fails twice.  With 94 assault
incidents already at the sampled point (density 752, both normalisations
saturated), adding one more assault incident at that same point leaves
the score EQUAL — and that score is 22.5, not 0, while the claim allows
equality only at score 0.  And starting from the EMPTY incident set the
pre-addition score is the neutral default 85, and adding one assault at
the sampled point RAISES the score to the computed 1336/15 ≈ 89.07. -/
theorem claim_C9_counterexample :
    (calculateRouteSafetyScore [((0 : ℚ), (0 : ℚ))] (crimeAssaultAt0 :: cdSaturated)
      = calculateRouteSafetyScore [((0 : ℚ), (0 : ℚ))] cdSaturated
     ∧ calculateRouteSafetyScore [((0 : ℚ), (0 : ℚ))] cdSaturated ≠ 0)
    ∧ calculateRouteSafetyScore [((0 : ℚ), (0 : ℚ))] ([] : List Crime)
      < calculateRouteSafetyScore [((0 : ℚ), (0 : ℚ))] (crimeAssaultAt0 :: ([] : List Crime)) := by
  decide

/-- C9 (amended): for a non-empty polyline, adding one incident located
exactly at a sampled route point behaves in two regimes.  If the
pre-existing incident list is NON-EMPTY, it never increases the route's
safetyScore, strictly decreases it whenever the pre-addition average
sampled density is below the saturation point 450 of the average
normalisation, and when it stays equal the score is still at least
22.5 — the clamp at 0 is unreachable.  If the pre-existing incident list
is EMPTY, the pre-addition score is the neutral no-data default 85 while
the post-addition score is the computed one, lying in [22.5, 90] — so in
that regime the score can increase. -/
theorem claim_C9_amended (coords : List (ℚ × ℚ)) (cd : List Crime) (c : Crime)
    (p : ℚ × ℚ) (hc : coords ≠ []) (hp : p ∈ samplePoints coords)
    (hlat : c.latitude = some p.1) (hlon : c.longitude = some p.2) :
    (cd ≠ [] →
      calculateRouteSafetyScore coords (c :: cd) ≤ calculateRouteSafetyScore coords cd
      ∧ (avgCrimeScore coords cd < 450 →
          calculateRouteSafetyScore coords (c :: cd) < calculateRouteSafetyScore coords cd)
      ∧ 45 / 2 ≤ calculateRouteSafetyScore coords cd)
    ∧ (cd = [] →
      calculateRouteSafetyScore coords cd = 85
      ∧ 45 / 2 ≤ calculateRouteSafetyScore coords (c :: cd)
      ∧ calculateRouteSafetyScore coords (c :: cd) ≤ 90) := by
  constructor
  case right =>
    intro hnil
    subst hnil
    have hb' := score_bounds coords [c] hc (List.cons_ne_nil c [])
    refine ⟨?_, hb'.1, hb'.2⟩
    simp [calculateRouteSafetyScore]
  intro hd
  have hd' : (c :: cd) ≠ [] := List.cons_ne_nil c cd
  have hlen : (0 : ℚ) < ((samplePoints coords).length : ℚ) := by
    exact_mod_cast List.length_pos.mpr (samplePoints_ne_nil coords hc)
  have hb := score_bounds coords cd hc hd
  rw [score_eq_raw coords cd hc hd, score_eq_raw coords (c :: cd) hc hd'] at *
  have hA : min (avgCrimeScore coords cd / 300) (3 / 2)
      ≤ min (avgCrimeScore coords (c :: cd) / 300) (3 / 2) := by
    apply min_le_min _ le_rfl
    apply (div_le_div_iff_of_pos_right (by norm_num)).mpr
    unfold avgCrimeScore
    exact (div_le_div_iff_of_pos_right hlen).mpr (totalCrimeScore_cons_le coords cd c)
  have hM : min (maxCrimeAtPoint coords cd / 500) (3 / 2)
      ≤ min (maxCrimeAtPoint coords (c :: cd) / 500) (3 / 2) := by
    apply min_le_min _ le_rfl
    apply (div_le_div_iff_of_pos_right (by norm_num)).mpr
    exact maxCrimeAtPoint_cons_le coords cd c
  refine ⟨by linarith, ?_, by linarith [hb.1]⟩
  intro havg
  have havg' : avgCrimeScore coords cd < avgCrimeScore coords (c :: cd) := by
    unfold avgCrimeScore
    exact (div_lt_div_iff_of_pos_right hlen).mpr
      (totalCrimeScore_cons_lt coords cd c p hp hlat hlon)
  have h2 : avgCrimeScore coords cd / 300 < 3 / 2 := by
    rw [div_lt_iff₀ (by norm_num)]
    linarith
  have hAlt : min (avgCrimeScore coords cd / 300) (3 / 2)
      < min (avgCrimeScore coords (c :: cd) / 300) (3 / 2) := by
    rw [min_eq_left (le_of_lt h2)]
    exact lt_min ((div_lt_div_iff_of_pos_right (by norm_num)).mpr havg') h2
  linarith

unseal Rat.mul Rat.inv Rat.add Rat.sub in
theorem claim_C9_witness :
    (([((0 : ℚ), (0 : ℚ))] : List (ℚ × ℚ)) ≠ [] ∧ ([crimeOtherAt0] : List Crime) ≠ []
     ∧ ((0 : ℚ), (0 : ℚ)) ∈ samplePoints [((0 : ℚ), (0 : ℚ))]
     ∧ crimeAssaultAt0.latitude = some 0 ∧ crimeAssaultAt0.longitude = some 0
     ∧ avgCrimeScore [((0 : ℚ), (0 : ℚ))] [crimeOtherAt0] < 450)
    ∧ calculateRouteSafetyScore [((0 : ℚ), (0 : ℚ))] (crimeAssaultAt0 :: [crimeOtherAt0])
      < calculateRouteSafetyScore [((0 : ℚ), (0 : ℚ))] [crimeOtherAt0]
    ∧ calculateRouteSafetyScore [((0 : ℚ), (0 : ℚ))] ([] : List Crime) = 85
    ∧ 85 < calculateRouteSafetyScore [((0 : ℚ), (0 : ℚ))] (crimeAssaultAt0 :: ([] : List Crime)) :=
  ⟨⟨by decide, by decide, by decide, by decide, by decide, by decide⟩,
    ((claim_C9_amended [((0 : ℚ), (0 : ℚ))] [crimeOtherAt0] crimeAssaultAt0
      ((0 : ℚ), (0 : ℚ)) (by decide) (by decide) (by decide) (by decide)).1
      (by decide)).2.1 (by decide),
    ((claim_C9_amended [((0 : ℚ), (0 : ℚ))] ([] : List Crime) crimeAssaultAt0
      ((0 : ℚ), (0 : ℚ)) (by decide) (by decide) (by decide) (by decide)).2 rfl).1,
    by decide⟩

/-! ### Claim C6 -/

theorem riskFilterMap_eq (cd : List Crime) (l : List (ℕ × (ℚ × ℚ))) :
    l.filterMap (fun p =>
      if p.1 % 10 = 0 then
        if 15 < calculateCrimeDensity p.2.1 p.2.2 cd defaultRadius then
          some ⟨p.2.1, p.2.2,
            if 50 < calculateCrimeDensity p.2.1 p.2.2 cd defaultRadius then "high" else "medium",
            riskDescription (cd.filter (fun c => nearbyAt c p.2.1 p.2.2))⟩
        else none
      else none)
    = (l.filter (fun p => decide (p.1 % 10 = 0)
          && decide (15 < calculateCrimeDensity p.2.1 p.2.2 cd defaultRadius))).map
        (fun p => (⟨p.2.1, p.2.2,
            if 50 < calculateCrimeDensity p.2.1 p.2.2 cd defaultRadius then "high" else "medium",
            riskDescription (cd.filter (fun c => nearbyAt c p.2.1 p.2.2))⟩ : RiskArea)) := by
  induction l with
  | nil => simp
  | cons q l ih =>
      by_cases h1 : q.1 % 10 = 0 <;>
        by_cases h2 : 15 < calculateCrimeDensity q.2.1 q.2.2 cd defaultRadius <;>
          simp [h1, h2, ih]

/-- C6: `identifyHighRiskAreas` scans exactly the polyline indices
divisible by 10; a sampled point yields a segment iff its density exceeds
15, with risk `"high"` iff the density exceeds 50 and `"medium"`
otherwise, in traversal order; and on a 101-point polyline the scanned
indices are {0,10,...,100} while the Route Scorer's stride-5 sample uses
{0,5,...,100}. -/
theorem claim_C6 (coords : List (ℚ × ℚ)) (cd : List Crime) :
    identifyHighRiskAreas coords cd
      = ((coords.enum.filter (fun q => decide (q.1 % 10 = 0)
            && decide (15 < calculateCrimeDensity q.2.1 q.2.2 cd defaultRadius))).map
          (fun q => (⟨q.2.1, q.2.2,
              if 50 < calculateCrimeDensity q.2.1 q.2.2 cd defaultRadius then "high" else "medium",
              riskDescription (cd.filter (fun c => nearbyAt c q.2.1 q.2.2))⟩ : RiskArea)))
    ∧ (coords.length = 101 →
        (coords.enum.filter (fun q => decide (q.1 % 10 = 0))).map Prod.fst
            = [0, 10, 20, 30, 40, 50, 60, 70, 80, 90, 100]
        ∧ (coords.enum.filter (fun q => decide (q.1 % 5 = 0))).map Prod.fst
            = [0, 5, 10, 15, 20, 25, 30, 35, 40, 45, 50,
               55, 60, 65, 70, 75, 80, 85, 90, 95, 100]) := by
  constructor
  · simp only [identifyHighRiskAreas]
    exact riskFilterMap_eq cd coords.enum
  · intro hlen
    constructor
    · rw [show (fun q : ℕ × (ℚ × ℚ) => decide (q.1 % 10 = 0))
            = ((fun i => decide (i % 10 = 0)) ∘ Prod.fst) from rfl]
      rw [← List.filter_map, List.enum_map_fst, hlen]
      decide
    · rw [show (fun q : ℕ × (ℚ × ℚ) => decide (q.1 % 5 = 0))
            = ((fun i => decide (i % 5 = 0)) ∘ Prod.fst) from rfl]
      rw [← List.filter_map, List.enum_map_fst, hlen]
      decide

set_option maxRecDepth 40000 in
theorem claim_C6_witness :
    ((List.replicate 101 ((0 : ℚ), (0 : ℚ))).length = 101)
    ∧ ((List.replicate 101 ((0 : ℚ), (0 : ℚ))).enum.filter
          (fun q => decide (q.1 % 10 = 0))).map Prod.fst
        = [0, 10, 20, 30, 40, 50, 60, 70, 80, 90, 100]
    ∧ ((List.replicate 101 ((0 : ℚ), (0 : ℚ))).enum.filter
          (fun q => decide (q.1 % 5 = 0))).map Prod.fst
        = [0, 5, 10, 15, 20, 25, 30, 35, 40, 45, 50,
           55, 60, 65, 70, 75, 80, 85, 90, 95, 100] :=
  ⟨by decide, (claim_C6 (List.replicate 101 ((0 : ℚ), (0 : ℚ))) []).2 (by decide)⟩

/-! ### Claim C8 -/

unseal Rat.mul Rat.inv Rat.add Rat.sub in
/-- C8 (counterexample): a one-point route with a single weight-1 incident
at the point has unrounded score 89.8833…; the stored `safetyScore` field
is `Math.round` of it, 90, while `safetyGrade` is computed from the
UNROUNDED value and is "B".  The claimed threshold function of the stored
field would give "A" for 90, so the field relation in the claim is false. -/
theorem claim_C8_counterexample :
    (processRoute [crimeOtherAt0] routeOne).safetyScore = 90
    ∧ (processRoute [crimeOtherAt0] routeOne).safetyGrade = "B"
    ∧ getSafetyGrade (((90 : ℤ) : ℚ)) = "A" := by
  decide

theorem gradeRank_getSafetyGrade (x : ℚ) :
    gradeRank (getSafetyGrade x)
      = if 90 ≤ x then 4 else if 80 ≤ x then 3 else if 70 ≤ x then 2
        else if 60 ≤ x then 1 else 0 := by
  unfold getSafetyGrade
  split_ifs <;> decide

/-- C8 (amended): `safetyGrade` is the pure monotonic threshold function
(≥90→A, ≥80→B, ≥70→C, ≥60→D, else F) of the UNROUNDED safety score, while
the stored `safetyScore` field is the rounded score — so the grade may
disagree with the thresholds applied to the stored field (e.g. stored 90
with grade B). -/
theorem claim_C8_amended :
    (∀ (cd : List Crime) (r : RouteData),
        (processRoute cd r).safetyGrade
          = getSafetyGrade (calculateRouteSafetyScore r.coordinates cd)
        ∧ (processRoute cd r).safetyScore
          = jsRound (calculateRouteSafetyScore r.coordinates cd))
    ∧ (∀ s : ℚ,
        (getSafetyGrade s = "A" ↔ 90 ≤ s)
        ∧ (getSafetyGrade s = "B" ↔ 80 ≤ s ∧ s < 90)
        ∧ (getSafetyGrade s = "C" ↔ 70 ≤ s ∧ s < 80)
        ∧ (getSafetyGrade s = "D" ↔ 60 ≤ s ∧ s < 70)
        ∧ (getSafetyGrade s = "F" ↔ s < 60))
    ∧ (∀ s t : ℚ, s ≤ t → gradeRank (getSafetyGrade s) ≤ gradeRank (getSafetyGrade t)) := by
  refine ⟨fun cd r => ⟨rfl, rfl⟩, fun s => ?_, fun s t hst => ?_⟩
  · unfold getSafetyGrade
    split_ifs with h1 h2 h3 h4 <;>
      refine ⟨?_, ?_, ?_, ?_, ?_⟩ <;>
        simp_all <;> first | linarith | (intro h; linarith)
  · rw [gradeRank_getSafetyGrade, gradeRank_getSafetyGrade]
    split_ifs <;> first | omega | linarith

theorem claim_C8_witness :
    ((1 : ℚ) ≤ 2) ∧ gradeRank (getSafetyGrade 1) ≤ gradeRank (getSafetyGrade 2) :=
  ⟨by norm_num, claim_C8_amended.2.2 1 2 (by norm_num)⟩

/-! ### Claim C3 -/

theorem stInsert_ne_nil {α : Type} (le : α → α → Bool) (x : α) (l : List α) :
    stInsert le x l ≠ [] := by
  cases l with
  | nil => simp [stInsert]
  | cons y ys =>
      simp only [stInsert]
      split <;> simp

theorem stSort_eq_nil_iff {α : Type} (le : α → α → Bool) (l : List α) :
    stSort le l = [] ↔ l = [] := by
  cases l with
  | nil => simp [stSort]
  | cons x xs =>
      simp only [stSort]
      constructor
      · intro h
        exact absurd h (stInsert_ne_nil le x (stSort le xs))
      · intro h
        exact absurd h (List.cons_ne_nil x xs)

theorem pickF_eq_none_iff {α : Type} (le : α → α → Bool) (l : List α) :
    pickF le l = none ↔ l = [] := by
  cases l with
  | nil => simp [pickF]
  | cons x xs =>
      simp only [pickF]
      cases hxs : pickF le xs with
      | none => simp
      | some a =>
          constructor
          · intro h
            have h' : (if le x a = true then some x else some a) = none := h
            by_cases hb : le x a = true
            · rw [if_pos hb] at h'
              exact absurd h' (by simp)
            · rw [if_neg hb] at h'
              exact absurd h' (by simp)
          · intro h
            exact absurd h (List.cons_ne_nil x xs)

theorem head?_stSort {α : Type} (le : α → α → Bool) (l : List α) :
    (stSort le l).head? = pickF le l := by
  induction l with
  | nil => rfl
  | cons x xs ih =>
      simp only [stSort, pickF]
      cases h : stSort le xs with
      | nil =>
          rw [h] at ih
          simp only [List.head?_nil] at ih
          rw [← ih]
          simp [stInsert]
      | cons y ys =>
          rw [h] at ih
          simp only [List.head?_cons] at ih
          rw [← ih]
          simp only [stInsert]
          split <;> simp

theorem pickF_mem_split {α : Type} (le : α → α → Bool)
    (htot : ∀ a b, le a b = true ∨ le b a = true)
    (htrans : ∀ a b c, le a b = true → le b c = true → le a c = true) :
    ∀ (l : List α) (m : α), pickF le l = some m →
      ∃ l1 l2, l = l1 ++ m :: l2 ∧ (∀ y ∈ l1, le y m = false)
        ∧ (∀ y ∈ l, le m y = true) := by
  intro l
  induction l with
  | nil => intro m h; simp [pickF] at h
  | cons x xs ih =>
      intro m h
      simp only [pickF] at h
      cases hxs : pickF le xs with
      | none =>
          rw [hxs] at h
          simp only [Option.some.injEq] at h
          have hxe : xs = [] := (pickF_eq_none_iff le xs).mp hxs
          subst hxe
          subst h
          refine ⟨[], [], by simp, by simp, ?_⟩
          intro y hy
          simp only [List.mem_singleton] at hy
          subst hy
          rcases htot y y with h0 | h0 <;> exact h0
      | some m' =>
          rw [hxs] at h
          have h' : (if le x m' = true then some x else some m') = some m := h
          by_cases hle : le x m' = true
          · rw [if_pos hle] at h'
            injection h' with hxm
            subst hxm
            obtain ⟨l1', l2', heq, hbef, hall⟩ := ih m' hxs
            refine ⟨[], xs, by simp, by simp, ?_⟩
            intro y hy
            rcases List.mem_cons.mp hy with hy | hy
            · subst hy
              rcases htot y y with h0 | h0 <;> exact h0
            · exact htrans _ _ _ hle (hall y hy)
          · rw [if_neg hle] at h'
            injection h' with hmm
            subst hmm
            obtain ⟨l1', l2', heq, hbef, hall⟩ := ih m' hxs
            refine ⟨x :: l1', l2', by simp [heq], ?_, ?_⟩
            · intro y hy
              rcases List.mem_cons.mp hy with hy | hy
              · subst hy
                simpa using hle
              · exact hbef y hy
            · intro y hy
              rcases List.mem_cons.mp hy with hy | hy
              · subst hy
                rcases htot y m' with h0 | h0
                · exact absurd h0 hle
                · exact h0
              · exact hall y hy

theorem leDuration_total (a b : ProcessedRoute) :
    leDuration a b = true ∨ leDuration b a = true := by
  rcases le_total a.duration_seconds b.duration_seconds with h | h
  · left; simpa [leDuration] using h
  · right; simpa [leDuration] using h

theorem leDuration_trans (a b c : ProcessedRoute) (hab : leDuration a b = true)
    (hbc : leDuration b c = true) : leDuration a c = true := by
  simp only [leDuration, decide_eq_true_eq] at *
  linarith

theorem leSafety_total (a b : ProcessedRoute) :
    leSafety a b = true ∨ leSafety b a = true := by
  rcases le_total b.safetyScore a.safetyScore with h | h
  · left; simpa [leSafety] using h
  · right; simpa [leSafety] using h

theorem leSafety_trans (a b c : ProcessedRoute) (hab : leSafety a b = true)
    (hbc : leSafety b c = true) : leSafety a c = true := by
  simp only [leSafety, decide_eq_true_eq] at *
  omega

/-- C3: for every non-empty pool, the selector's `fastest` is the
first-occurrence minimum of `duration_seconds` and `safest` the
first-occurrence maximum of `safetyScore`; a single `"fastest_safest"`
entry is emitted exactly when the two agree on distance AND duration,
otherwise the two entries {fastest, safest} re-indexed 0, 1; and the
default display route is the `"safest"` entry when present, else the
merged entry. -/
theorem claim_C3 (rs : List ProcessedRoute) (hne : rs ≠ []) :
    ∃ f s,
      (∃ l1 l2, rs = l1 ++ f :: l2
        ∧ (∀ y ∈ l1, f.duration_seconds < y.duration_seconds)
        ∧ (∀ y ∈ rs, f.duration_seconds ≤ y.duration_seconds))
      ∧ (∃ m1 m2, rs = m1 ++ s :: m2
        ∧ (∀ y ∈ m1, y.safetyScore < s.safetyScore)
        ∧ (∀ y ∈ rs, y.safetyScore ≤ s.safetyScore))
      ∧ selectFinalRoutes rs
          = (if f.distance_meters = s.distance_meters
                ∧ f.duration_seconds = s.duration_seconds
             then [⟨0, "fastest_safest", f⟩]
             else [⟨0, "fastest", f⟩, ⟨1, "safest", s⟩])
      ∧ defaultRouteOf (selectFinalRoutes rs)
          = some (if f.distance_meters = s.distance_meters
                    ∧ f.duration_seconds = s.duration_seconds
                  then ⟨0, "fastest_safest", f⟩
                  else ⟨1, "safest", s⟩) := by
  have hf : ∃ f, pickF leDuration rs = some f := by
    cases hp : pickF leDuration rs with
    | none => exact absurd ((pickF_eq_none_iff leDuration rs).mp hp) hne
    | some f => exact ⟨f, rfl⟩
  have hs : ∃ s, pickF leSafety rs = some s := by
    cases hp : pickF leSafety rs with
    | none => exact absurd ((pickF_eq_none_iff leSafety rs).mp hp) hne
    | some s => exact ⟨s, rfl⟩
  obtain ⟨f, hf⟩ := hf
  obtain ⟨s, hs⟩ := hs
  have hsel : selectFinalRoutes rs
      = (if f.distance_meters = s.distance_meters
            ∧ f.duration_seconds = s.duration_seconds
         then [⟨0, "fastest_safest", f⟩]
         else [⟨0, "fastest", f⟩, ⟨1, "safest", s⟩]) := by
    unfold selectFinalRoutes
    rw [head?_stSort, head?_stSort, hf, hs]
  refine ⟨f, s, ?_, ?_, hsel, ?_⟩
  · obtain ⟨l1, l2, heq, hbef, hall⟩ :=
      pickF_mem_split leDuration leDuration_total leDuration_trans rs f hf
    refine ⟨l1, l2, heq, ?_, ?_⟩
    · intro y hy
      have h := hbef y hy
      simp only [leDuration, decide_eq_false_iff_not, not_le] at h
      exact h
    · intro y hy
      have h := hall y hy
      simpa [leDuration] using h
  · obtain ⟨m1, m2, heq, hbef, hall⟩ :=
      pickF_mem_split leSafety leSafety_total leSafety_trans rs s hs
    refine ⟨m1, m2, heq, ?_, ?_⟩
    · intro y hy
      have h := hbef y hy
      simp only [leSafety, decide_eq_false_iff_not, not_le] at h
      exact h
    · intro y hy
      have h := hall y hy
      simpa [leSafety] using h
  · rw [hsel]
    by_cases hmerge : f.distance_meters = s.distance_meters
        ∧ f.duration_seconds = s.duration_seconds
    · rw [if_pos hmerge, if_pos hmerge]
      simp [defaultRouteOf]
    · rw [if_neg hmerge, if_neg hmerge]
      simp [defaultRouteOf]

theorem claim_C3_witness :
    (([prFast, prSafe] : List ProcessedRoute) ≠ [])
    ∧ (∃ f s,
        (∃ l1 l2, [prFast, prSafe] = l1 ++ f :: l2
          ∧ (∀ y ∈ l1, f.duration_seconds < y.duration_seconds)
          ∧ (∀ y ∈ [prFast, prSafe], f.duration_seconds ≤ y.duration_seconds))
        ∧ (∃ m1 m2, [prFast, prSafe] = m1 ++ s :: m2
          ∧ (∀ y ∈ m1, y.safetyScore < s.safetyScore)
          ∧ (∀ y ∈ [prFast, prSafe], y.safetyScore ≤ s.safetyScore))
        ∧ selectFinalRoutes [prFast, prSafe]
            = (if f.distance_meters = s.distance_meters
                  ∧ f.duration_seconds = s.duration_seconds
               then [⟨0, "fastest_safest", f⟩]
               else [⟨0, "fastest", f⟩, ⟨1, "safest", s⟩])
        ∧ defaultRouteOf (selectFinalRoutes [prFast, prSafe])
            = some (if f.distance_meters = s.distance_meters
                      ∧ f.duration_seconds = s.duration_seconds
                    then ⟨0, "fastest_safest", f⟩
                    else ⟨1, "safest", s⟩)) :=
  ⟨by simp, claim_C3 [prFast, prSafe] (by simp)⟩

end Where2Liv
